import Mathlib

/-!
# Verification of the OmniSpatial remote-feature-resolution service

Shallow embedding of `viewer`'s Next.js API route that converts a remote
Zarr/AnnData bundle into a GeoJSON FeatureCollection (source: the handler
module defining `assertHttpUrl`, `getTableName`, `resolveColumns`,
`readColumn`, `geometryFromRow`, `buildFeatureCollection` and `handler`).

External collaborators (the JS `URL` constructor, `@terraformer/wkt-parser`,
`JSON.parse`, JS `Number` coercion of strings, and the remote zarr store) are
modelled as explicit parameters / abstract store structures, so theorems
quantify over their behaviour.  JS numbers are modelled as exact rationals
plus the non-finite values `NaN`, `+Infinity`, `-Infinity`; this captures
every comparison and clamping operation the route performs (no rounding is
exercised by the route's arithmetic, which only applies `Math.min` and
finiteness tests).
-/

namespace OmniSpatial

/-- Model of a JS `number`: a finite rational or one of the non-finite values. -/
inductive JSNum where
  | fin (q : ℚ)
  | nan
  | posInf
  | negInf
deriving DecidableEq, Repr

/-- JS `Number.isFinite`. -/
def JSNum.isFinite : JSNum → Bool
  | .fin _ => true
  | _ => false

/-- JS truthiness of a number (`0` and `NaN` are falsy). -/
def JSNum.truthy : JSNum → Bool
  | .fin q => q ≠ 0
  | .nan => false
  | .posInf => true
  | .negInf => true

/-- JS `a || b` restricted to numbers, as used in `Number(x) || MAX_LIMIT`. -/
def jsOr (a b : JSNum) : JSNum := if a.truthy then a else b

/-- JS `Math.min` on two numbers. -/
def jsMin : JSNum → JSNum → JSNum
  | .nan, _ => .nan
  | _, .nan => .nan
  | .negInf, _ => .negInf
  | _, .negInf => .negInf
  | .posInf, b => b
  | a, .posInf => a
  | .fin a, .fin b => .fin (min a b)

/-- Model of a JS value as it appears in a row record / zarr column. -/
inductive JSVal where
  | number (n : JSNum)
  | str (s : String)
  | boolean (b : Bool)
  | null
  | undefined
deriving DecidableEq, Repr

/-- JS `Number(v)` coercion.  Coercion of strings is delegated to the
parameter `stn` (the JS runtime's string-to-number parse). -/
def jsNumberOf (stn : String → JSNum) : JSVal → JSNum
  | .number n => n
  | .str s => stn s
  | .boolean b => .fin (if b then 1 else 0)
  | .null => .fin 0
  | .undefined => .nan

/-- The ternary `typeof v === "number" ? v : Number(v)` used for the `x` and
`y` fields in `geometryFromRow`. -/
def numericOf (stn : String → JSNum) (v : JSVal) : JSNum :=
  match v with
  | .number n => n
  | v => jsNumberOf stn v

/-- GeoJSON geometry as far as the route distinguishes it: the point
geometries it builds itself, polygons, and any other geometry a WKT parser
may return. -/
inductive Geometry where
  | point (x y : ℚ)
  | polygon (rings : List (List (ℚ × ℚ)))
  | otherGeom (tag : String)
deriving DecidableEq, Repr

/-- A row record: the JS object built by the assembly loop, as an
insertion-ordered association list (later writes to an existing key update
it in place, as JS object assignment does). -/
abbrev RowRecord := List (String × JSVal)

/-- JS property read `row[key]`: `undefined` when the key is absent. -/
def rowGet (row : RowRecord) (key : String) : JSVal :=
  (row.lookup key).getD .undefined

/-- The `row["x"]` / `row["y"]` fallback of `geometryFromRow`: coerce both fields
and build a Point when both are finite. -/
def pointOfRow (stn : String → JSNum) (row : RowRecord) : Option Geometry :=
  let x := numericOf stn (rowGet row "x")
  let y := numericOf stn (rowGet row "y")
  if x.isFinite && y.isFinite then
    match x, y with
    | .fin qx, .fin qy => some (.point qx qy)
    | _, _ => none
  else none

/-- The character set JS `trim` strips: ECMAScript WhiteSpace (TAB, VT,
FF, SP, NBSP, ZWNBSP and the Unicode Space_Separator characters) and
LineTerminator (LF, CR, LS, PS). -/
def jsWhitespace (c : Char) : Bool :=
  c.isWhitespace || c = '\u000B' || c = '\u000C' || c = '\u00A0' || c = '\uFEFF' ||
  c = '\u1680' || (decide (0x2000 ≤ c.toNat) && decide (c.toNat ≤ 0x200A)) ||
  c = '\u202F' || c = '\u205F' || c = '\u3000' || c = '\u2028' || c = '\u2029'

/-- JS `String.prototype.trim`: strip leading and trailing whitespace
(structural so that it evaluates in the kernel). -/
def jsTrim (s : String) : String :=
  ⟨((s.data.dropWhile jsWhitespace).reverse.dropWhile jsWhitespace).reverse⟩

/-- Model of `geometryFromRow`: prefer the `polygon_wkt` field when it is a string
that is non-blank after trimming; a parser exception is modelled by
`parseWkt` returning `none` (the `catch` branch returns `null`). -/
def geometryFromRow (parseWkt : String → Option Geometry) (stn : String → JSNum)
    (row : RowRecord) : Option Geometry :=
  match rowGet row "polygon_wkt" with
  | .str s =>
    if jsTrim s ≠ "" then parseWkt (jsTrim s)
    else pointOfRow stn row
  | _ => pointOfRow stn row

/-- A query-string parameter value in Next.js: `string | string[]`. -/
inductive QueryVal where
  | str (s : String)
  | arr (xs : List String)
deriving DecidableEq, Repr

/-- The selection `Array.isArray(limitParam) ? limitParam[0] : limitParam`. -/
def limitCandidate : Option QueryVal → Option String
  | some (.arr xs) => xs.head?
  | some (.str s) => some s
  | none => none

/-- The coercion `Number(limitCandidate)` where an absent candidate coerces to `NaN`. -/
def candNumber (stn : String → JSNum) : Option String → JSNum
  | some s => stn s
  | none => .nan

/-- The `MAX_LIMIT` constant of the route. -/
def MAX_LIMIT : ℚ := 2000

/-- The clamp `Math.min(Number(limitCandidate) || MAX_LIMIT, MAX_LIMIT)`. -/
def effectiveLimit (stn : String → JSNum) (limitParam : Option QueryVal) : JSNum :=
  jsMin (jsOr (candNumber stn (limitCandidate limitParam)) (.fin MAX_LIMIT)) (.fin MAX_LIMIT)

/-! ## JSON values (result of `JSON.parse` on `.zattrs`) -/

/-- Parsed JSON document. -/
inductive JSON where
  | str (s : String)
  | num (q : ℚ)
  | bool (b : Bool)
  | null
  | arr (xs : List JSON)
  | obj (fields : List (String × JSON))

/-- JS property access `attrs[key]` on a parsed JSON document: `undefined`
(here `none`) unless the document is an object holding the key. -/
def jsonLookup (j : JSON) (key : String) : Option JSON :=
  match j with
  | .obj fields => fields.lookup key
  | _ => none

mutual
/-- The unchecked `as string[]` cast on the declared `column-order` array:
entries are used as object keys / path segments, where JS coerces them to
strings.  Number printing uses `ℚ`'s `toString` (JS prints decimally; no
claim exercises non-string order entries). -/
def jsonKeyString : JSON → String
  | .str s => s
  | .num q => toString q
  | .bool b => if b then "true" else "false"
  | .null => "null"
  | .arr xs => String.intercalate "," (jsonKeyStrings xs)
  | .obj _ => "[object Object]"

def jsonKeyStrings : List JSON → List String
  | [] => []
  | x :: xs => jsonKeyString x :: jsonKeyStrings xs
end

/-! ## The remote zarr store (Bundle Accessor) -/

/-- One entry of `listDir(...).children`. -/
structure DirEntry where
  pathSegment : String
  kind : String
deriving DecidableEq, Repr

/-- Abstract `HTTPStore` for one bundle URL.  Every operation awaits the
network and may reject, hence `Except`.  `arrayAt` models
`openArray` + metadata: the full logical contents of the 1-d array at a
path (its length is `shape[0]`); `readColumn` only ever materializes the
requested prefix of it. -/
structure Store where
  containsItem : String → Except String Bool
  listDir : String → Except String (List DirEntry)
  getItem : String → Except String (Option String)
  arrayAt : String → Except String (List JSVal)

/-- Result of a pipeline stage, paired with how many Bundle-Accessor
(store) calls the stage performed. -/
structure BRes (α : Type) where
  res : Except String α
  calls : Nat
deriving Repr

/-- Lift one store access (one awaited call). -/
def call1 {α : Type} (r : Except String α) : BRes α := ⟨r, 1⟩

/-- A pure (non-awaiting) successful step. -/
def BRes.pure {α : Type} (a : α) : BRes α := ⟨.ok a, 0⟩

/-- A thrown error from pure code. -/
def BRes.fail {α : Type} (e : String) : BRes α := ⟨.error e, 0⟩

/-- Sequencing: an error aborts (the exception propagates out of the
handler's `try`), and store-call counts add up. -/
def BRes.andThen {α β : Type} (r : BRes α) (f : α → BRes β) : BRes β :=
  match r.res with
  | .error e => ⟨.error e, r.calls⟩
  | .ok a => ⟨(f a).res, r.calls + (f a).calls⟩

/-! ## Source Validator -/

/-- Model of `assertHttpUrl`.  `parseURL` models `new URL(raw)` and returns the
parsed URL's `protocol` (`none` when the constructor throws); the regex
`/^https?:$/` accepts exactly `"http:"` and `"https:"`. -/
def assertHttpUrl (parseURL : String → Option String) (raw : String) :
    Except String Unit :=
  match parseURL raw with
  | none => .error "URL is not valid."
  | some protocol =>
    if protocol = "http:" ∨ protocol = "https:" then .ok ()
    else .error "Only http and https URLs are allowed."

/-! ## Table Resolver -/

/-- Model of `getTableName`: `if (explicit)` is JS-truthy, so the empty string also
falls through to default resolution. -/
def getTableName (store : Store) (explicit : Option String) : BRes String :=
  if explicit.getD "" ≠ "" then BRes.pure (explicit.getD "")
  else
    (call1 (store.listDir "tables")).andThen fun entries =>
      match entries.find? (fun e => e.kind = "dir") with
      | some child => BRes.pure child.pathSegment
      | none => BRes.fail "No AnnData tables found in bundle."

/-! ## Column Order Resolver -/

/-- Model of `resolveColumns`.  `jparse` models `TextDecoder().decode` +
`JSON.parse` (throwing with some message on malformed text). -/
def resolveColumns (jparse : String → Except String JSON) (store : Store)
    (tableName : String) : BRes (List String) :=
  let obsPath := "tables/" ++ tableName ++ "/obs"
  (call1 (store.getItem (obsPath ++ "/.zattrs"))).andThen fun attrsBuffer =>
    match attrsBuffer with
    | none => BRes.fail "Unable to read AnnData observation metadata."
    | some text =>
      match jparse text with
      | .error e => BRes.fail e
      | .ok attrs =>
        let order : List String :=
          match jsonLookup attrs "column-order" with
          | some (.arr xs) => jsonKeyStrings xs
          | _ => []
        if order.length > 0 then BRes.pure order
        else
          (call1 (store.listDir obsPath)).andThen fun listing =>
            BRes.pure
              (((listing.filter fun e => e.kind = "array" ∨ e.kind = "dataset").map
                  fun e => e.pathSegment).filter
                fun name => !name.startsWith ".")

/-! ## Column Reader -/

/-- The slice `slice(0, stop)` applied by `array.get`, with zarr's Python slicing
semantics: a non-negative integer stop takes a prefix (clamped to the
length), a negative integer stop counts from the end (clamped at 0), and
any non-integer stop is rejected by the slice machinery. -/
def zarrSlice0 (arr : List JSVal) (stop : JSNum) : Except String (List JSVal) :=
  match stop with
  | .fin q =>
    if q.den = 1 then
      if 0 ≤ q.num then .ok (arr.take q.num.toNat)
      else .ok (arr.take (arr.length - (-q.num).toNat))
    else .error "Invalid slice stop."
  | _ => .error "Invalid slice stop."

/-- Model of `readColumn`: open the array (one awaited call), then fetch
`slice(0, Math.min(count, total))` (one awaited call). -/
def readColumn (store : Store) (path : String) (count : JSNum) : BRes (List JSVal) :=
  (call1 (store.arrayAt path)).andThen fun arr =>
    (call1 (zarrSlice0 arr (jsMin count (.fin arr.length)))).andThen fun data =>
      BRes.pure data

/-- The `for (const column of columns)` loop filling `data`. -/
def readColumns (store : Store) (obsPath : String) (count : JSNum) :
    List String → BRes (List (String × List JSVal))
  | [] => BRes.pure []
  | c :: rest =>
    (readColumn store (obsPath ++ "/" ++ c) count).andThen fun vals =>
      (readColumns store obsPath count rest).andThen fun tail =>
        BRes.pure ((c, vals) :: tail)

/-! ## Feature Assembler and `buildFeatureCollection` -/

/-- A GeoJSON feature (`type: "Feature"` is a constant literal). -/
structure Feature where
  geometry : Geometry
  properties : RowRecord
deriving DecidableEq, Repr

/-- The route's `FeatureResponse` (`type: "FeatureCollection"` is a
constant literal). -/
structure FeatureResponse where
  features : List Feature
  columns : List String
deriving DecidableEq, Repr

/-- JS object assignment `row[key] = v`: update in place when the key
exists, append otherwise (insertion order preserved). -/
def insertKV (row : RowRecord) (key : String) (v : JSVal) : RowRecord :=
  match row with
  | [] => [(key, v)]
  | (k, w) :: rest => if k = key then (k, v) :: rest else (k, w) :: insertKV rest key v

/-- The access `data[column]?.[index]` for the already-read column data. -/
def dataAt (pairs : List (String × List JSVal)) (column : String) (index : Nat) : JSVal :=
  ((pairs.lookup column).getD []).getD index .undefined

/-- The inner loop `for (const column of columns) row[column] = ...`. -/
def buildRow (pairs : List (String × List JSVal)) (columns : List String)
    (index : Nat) : RowRecord :=
  columns.foldl (fun row c => insertKV row c (dataAt pairs c index)) []

/-- The row loop of `buildFeatureCollection`: `features.push` only when the
geometry resolved. -/
def assembleFeatures (parseWkt : String → Option Geometry) (stn : String → JSNum)
    (pairs : List (String × List JSVal)) (columns : List String) (rows : Nat) :
    List Feature :=
  (List.range rows).foldl
    (fun acc index =>
      let row := buildRow pairs columns index
      match geometryFromRow parseWkt stn row with
      | none => acc
      | some g => acc ++ [⟨g, row⟩])
    []

/-- The external collaborators of the route: the JS `URL` constructor
(returning the parsed protocol), the WKT parser, JS string-to-number
coercion, and `JSON.parse`.  `parseURL_empty` records the one fact about
the `URL` constructor the route's control flow depends on: per the WHATWG
URL standard `new URL("")` always throws (there is no base URL here), so
the model only ranges over realizable parser behaviours. -/
structure Ext where
  parseURL : String → Option String
  parseWkt : String → Option Geometry
  stn : String → JSNum
  jparse : String → Except String JSON
  parseURL_empty : parseURL "" = none

/-- Model of `buildFeatureCollection`.  `env` assigns to each URL the store that
`new HTTPStore(url, ...)` would address. -/
def buildFeatureCollection (ext : Ext) (env : String → Store) (url : String)
    (tableName : Option String) (limitParam : Option QueryVal) :
    BRes FeatureResponse :=
  match assertHttpUrl ext.parseURL url with
  | .error e => ⟨.error e, 0⟩
  | .ok _ =>
    let store := env url
    (call1 (store.containsItem "tables/.zgroup")).andThen fun hasTables =>
      if !hasTables then BRes.fail "Bundle does not contain tables."
      else
        (getTableName store tableName).andThen fun name =>
          let limit := effectiveLimit ext.stn limitParam
          (resolveColumns ext.jparse store name).andThen fun columns =>
            if columns.length = 0 then BRes.fail "No observation columns available."
            else
              let obsPath := "tables/" ++ name ++ "/obs"
              (readColumns store obsPath limit columns).andThen fun pairs =>
                let firstColumn := columns.headD ""
                let rows := ((pairs.lookup firstColumn).getD []).length
                BRes.pure ⟨assembleFeatures ext.parseWkt ext.stn pairs columns rows, columns⟩

/-! ## HTTP handler and Response Cache -/

/-- One `CACHE` entry. -/
structure CacheEntry where
  timestamp : ℤ
  payload : FeatureResponse
deriving DecidableEq, Repr

/-- The module-level `CACHE` map. -/
abbrev CacheMap := String → Option CacheEntry

/-- The `CACHE_TTL_MS` constant. -/
def CACHE_TTL_MS : ℤ := 60 * 1000

/-- A serialized JSON response body. -/
inductive RespBody where
  | featureJson (fc : FeatureResponse)
  | errJson (msg : String)
deriving DecidableEq, Repr

/-- The observable HTTP response: status, optional `Allow` header, body. -/
structure Response where
  status : Nat
  allow : Option String
  body : RespBody
deriving DecidableEq, Repr

/-- An incoming request: method plus the three query parameters. -/
structure Request where
  method : String
  url : Option QueryVal
  table : Option QueryVal
  limit : Option QueryVal

/-- The ternary `typeof v === "string" ? v : undefined`. -/
def queryString : Option QueryVal → Option String
  | some (.str s) => some s
  | _ => none

/-- Template-literal interpolation `${v ?? ""}` of a query value (a JS
array stringifies as its comma-joined elements). -/
def templateString : Option QueryVal → String
  | none => ""
  | some (.str s) => s
  | some (.arr xs) => String.intercalate "," xs

/-- The cache key: the url, the table name (or empty) and the raw limit text,
joined with vertical-bar separators, exactly as the template literal builds it. -/
def cacheKey (url : String) (tableName : Option String)
    (limitParam : Option QueryVal) : String :=
  url ++ "|" ++ tableName.getD "" ++ "|" ++ templateString limitParam

/-- What one handler invocation produces: the response, the cache left
behind, and how many Bundle-Accessor calls were made. -/
structure HandlerOut where
  response : Response
  cache : CacheMap
  storeCalls : Nat

/-- The cache-miss path: run the pipeline; on success store a fresh entry
(overwriting the key) and reply 200, on failure reply 500 leaving the
cache untouched. -/
def handlerMiss (ext : Ext) (env : String → Store) (now : ℤ) (cache : CacheMap)
    (url : String) (tableName : Option String) (limitParam : Option QueryVal)
    (key : String) : HandlerOut :=
  let b := buildFeatureCollection ext env url tableName limitParam
  match b.res with
  | .ok payload =>
    ⟨⟨200, none, .featureJson payload⟩,
     fun k => if k = key then some ⟨now, payload⟩ else cache k, b.calls⟩
  | .error e => ⟨⟨500, none, .errJson e⟩, cache, b.calls⟩

/-- The exported Next.js `handler`.  The url-presence guard is
`if (!url)` on the `typeof`-ternary's result, so JS falsiness makes both
an absent (or array-valued) `url` and a present-but-empty `url=""` take
the 400 branch; the model spells the two falsy cases out with the
identical response. -/
def handler (ext : Ext) (env : String → Store) (now : ℤ) (cache : CacheMap)
    (req : Request) : HandlerOut :=
  if req.method ≠ "GET" then
    ⟨⟨405, some "GET", .errJson "Method not allowed"⟩, cache, 0⟩
  else
    match queryString req.url with
    | none => ⟨⟨400, none, .errJson "Missing url query parameter"⟩, cache, 0⟩
    | some url =>
      if url = "" then
        ⟨⟨400, none, .errJson "Missing url query parameter"⟩, cache, 0⟩
      else
      let tableName := queryString req.table
      let key := cacheKey url tableName req.limit
      match cache key with
      | some cached =>
        if now - cached.timestamp < CACHE_TTL_MS then
          ⟨⟨200, none, .featureJson cached.payload⟩, cache, 0⟩
        else handlerMiss ext env now cache url tableName req.limit key
      | none => handlerMiss ext env now cache url tableName req.limit key

/-! ## A concrete miniature bundle, used to instantiate theorems -/

/-- A store holding one table `t` whose `obs` declares columns `x`, `y`,
each a 1-element numeric array (`x = [1]`, `y = [2]`). -/
def exStore : Store where
  containsItem := fun p => .ok (p = "tables/.zgroup")
  listDir := fun p =>
    if p = "tables" then .ok [⟨"t", "dir"⟩]
    else if p = "tables/t/obs" then
      .ok [⟨".zattrs", "file"⟩, ⟨"x", "array"⟩, ⟨"y", "array"⟩]
    else .error "listDir failed"
  getItem := fun p =>
    if p = "tables/t/obs/.zattrs" then .ok (some "ATTRS") else .ok none
  arrayAt := fun p =>
    if p = "tables/t/obs/x" then .ok [.number (.fin 1)]
    else if p = "tables/t/obs/y" then .ok [.number (.fin 2)]
    else .error "openArray failed"

/-- Concrete collaborator behaviour consistent with the JS runtime on the
few inputs the example theorems exercise. -/
def exExt : Ext where
  parseURL := fun s =>
    if s = "http://bundle.example/data.zarr" then some "http:"
    else if s = "file:///etc/passwd" then some "file:"
    else none
  parseWkt := fun _ => none
  stn := fun s =>
    if s = "0" then .fin 0
    else if s = "5" then .fin 5
    else if s = "-3" then .fin (-3)
    else if s = "3000" then .fin 3000
    else if s = "2500" then .fin 2500
    else .nan
  jparse := fun s =>
    if s = "ATTRS" then .ok (.obj [("column-order", .arr [.str "x", .str "y"])])
    else .error "Unexpected token"
  parseURL_empty := rfl

/-- Every URL addresses the same miniature store. -/
def exEnv : String → Store := fun _ => exStore

/-- The good bundle URL of the examples. -/
def exUrl : String := "http://bundle.example/data.zarr"

/-- The candidate feature at a row index: the row record together with its
resolved geometry, `none` when the row is dropped. -/
def candFeature (parseWkt : String → Option Geometry) (stn : String → JSNum)
    (pairs : List (String × List JSVal)) (columns : List String)
    (index : Nat) : Option Feature :=
  let row := buildRow pairs columns index
  (geometryFromRow parseWkt stn row).map fun g => ⟨g, row⟩

/-- The row record the miniature bundle produces. -/
def exRowXY : RowRecord := [("x", .number (.fin 1)), ("y", .number (.fin 2))]

/-- The FeatureCollection the miniature bundle produces (for any limit that
reads at least one row). -/
def exFCgood : FeatureResponse := ⟨[⟨.point 1 2, exRowXY⟩], ["x", "y"]⟩

/-- The row of C1's counterexample: a whitespace-only (hence non-empty)
`polygon_wkt` string next to valid numeric fields. -/
def exRowBlankWkt : RowRecord :=
  [("polygon_wkt", .str " "), ("x", .number (.fin 1)), ("y", .number (.fin 2))]

/-! ## General lemmas -/

theorem andThen_res_of_ok {α β : Type} {r : BRes α} {a : α} (h : r.res = .ok a)
    (f : α → BRes β) : (r.andThen f).res = (f a).res := by
  simp [BRes.andThen, h]

theorem andThen_ok_iff {α β : Type} {r : BRes α} {f : α → BRes β} {b : β} :
    (r.andThen f).res = .ok b ↔ ∃ a, r.res = .ok a ∧ (f a).res = .ok b := by
  unfold BRes.andThen
  cases h : r.res <;> simp [h]

/-- The push-only accumulation loop is a `filterMap`. -/
theorem foldl_push_eq_filterMap {β α : Type} (g : β → Option α) :
    ∀ (l : List β) (acc : List α),
      (l.foldl (fun acc b => acc ++ (g b).toList) acc) = acc ++ l.filterMap g := by
  intro l
  induction l with
  | nil => intro acc; simp
  | cons b l ih =>
    intro acc
    simp only [List.foldl_cons, List.filterMap_cons]
    cases h : g b <;> simp [h, ih]

theorem assembleFeatures_eq_filterMap (pw : String → Option Geometry)
    (stn : String → JSNum) (pairs : List (String × List JSVal))
    (columns : List String) (rows : Nat) :
    assembleFeatures pw stn pairs columns rows
      = (List.range rows).filterMap (candFeature pw stn pairs columns) := by
  unfold assembleFeatures
  calc (List.range rows).foldl
        (fun acc index =>
          let row := buildRow pairs columns index
          match geometryFromRow pw stn row with
          | none => acc
          | some g => acc ++ [⟨g, row⟩]) []
      = (List.range rows).foldl
        (fun acc index => acc ++ (candFeature pw stn pairs columns index).toList) [] := by
        apply List.foldl_ext
        intro acc b _
        unfold candFeature
        cases h : geometryFromRow pw stn (buildRow pairs columns b) <;> simp [h]
    _ = [] ++ (List.range rows).filterMap (candFeature pw stn pairs columns) :=
        foldl_push_eq_filterMap _ _ _
    _ = (List.range rows).filterMap (candFeature pw stn pairs columns) := by simp

theorem assembleFeatures_length_le (pw : String → Option Geometry)
    (stn : String → JSNum) (pairs : List (String × List JSVal))
    (columns : List String) (rows : Nat) :
    (assembleFeatures pw stn pairs columns rows).length ≤ rows := by
  rw [assembleFeatures_eq_filterMap]
  calc ((List.range rows).filterMap (candFeature pw stn pairs columns)).length
      ≤ (List.range rows).length := List.length_filterMap_le _ _
    _ = rows := List.length_range rows

/-- The `x`/`y` fallback of `geometryFromRow`, characterized. -/
theorem pointOfRow_spec (stn : String → JSNum) (row : RowRecord) :
    (∀ qx qy, numericOf stn (rowGet row "x") = .fin qx →
      numericOf stn (rowGet row "y") = .fin qy →
      pointOfRow stn row = some (.point qx qy)) ∧
    (((numericOf stn (rowGet row "x")).isFinite = false ∨
      (numericOf stn (rowGet row "y")).isFinite = false) →
      pointOfRow stn row = none) := by
  constructor
  · intro qx qy hx hy
    unfold pointOfRow
    simp only [hx, hy, JSNum.isFinite, Bool.and_self, if_true]
  · intro hbad
    unfold pointOfRow
    rcases hbad with hx | hy
    · simp [hx]
    · simp [hy]

/-! ## C1 — geometry resolution precedence -/

/-- C1 (counterexample): a row whose `polygon_wkt` is the non-empty string
`" "` with valid numeric `x`, `y` fields.  The claim mandates attempting the
polygon parse (which fails here: the parser rejects every input) and
dropping the row; the code instead returns `Point{1, 2}` because its gate is
`wkt.trim()`-truthiness, not string non-emptiness. -/
theorem geometryFromRow_claim_false_on_blank_wkt :
    rowGet exRowBlankWkt "polygon_wkt" = .str " " ∧
    (" " : String) ≠ "" ∧
    (fun _ : String => (none : Option Geometry)) " " = none ∧
    geometryFromRow (fun _ => none) (fun _ => JSNum.nan) exRowBlankWkt
      = some (.point 1 2) := by
  refine ⟨by decide, by decide, rfl, by decide⟩

/-- C1 (amended): precedence of `geometryFromRow`, with the polygon branch
gated on the field being a string that is non-empty *after trimming
whitespace*: in that case the result is exactly the parser's output on the
trimmed text (`none` on parse failure, even when `x`/`y` are valid);
otherwise `Point{x, y}` when both fields coerce to finite numbers, else
`none`. -/
theorem geometryFromRow_precedence (pw : String → Option Geometry)
    (stn : String → JSNum) (row : RowRecord) :
    (∀ s, rowGet row "polygon_wkt" = .str s → jsTrim s ≠ "" →
      geometryFromRow pw stn row = pw (jsTrim s)) ∧
    ((∀ s, rowGet row "polygon_wkt" = .str s → jsTrim s = "") →
      (∀ qx qy, numericOf stn (rowGet row "x") = .fin qx →
        numericOf stn (rowGet row "y") = .fin qy →
        geometryFromRow pw stn row = some (.point qx qy)) ∧
      (((numericOf stn (rowGet row "x")).isFinite = false ∨
        (numericOf stn (rowGet row "y")).isFinite = false) →
        geometryFromRow pw stn row = none)) := by
  have hpoint := pointOfRow_spec stn row
  constructor
  · intro s hs ht
    unfold geometryFromRow
    rw [hs]
    simp [ht]
  · intro hblank
    have hgeo : geometryFromRow pw stn row = pointOfRow stn row := by
      unfold geometryFromRow
      cases hs : rowGet row "polygon_wkt" <;> try rfl
      next s => simp [hblank s hs]
    constructor
    · intro qx qy hx hy
      rw [hgeo]
      exact hpoint.1 qx qy hx hy
    · intro hbad
      rw [hgeo]
      exact hpoint.2 hbad

/-- C1 (witness): a well-formed polygon text resolves through the parser,
and a parser-free row with finite `x`, `y` resolves to a point. -/
theorem geometryFromRow_precedence_witness :
    geometryFromRow
        (fun s => if s = "POLYGON" then some (.polygon [[(0, 0), (1, 0), (1, 1)]]) else none)
        (fun _ => JSNum.nan) [("polygon_wkt", .str " POLYGON ")]
      = some (.polygon [[(0, 0), (1, 0), (1, 1)]]) ∧
    geometryFromRow (fun _ => none) (fun _ => JSNum.nan) exRowXY
      = some (.point 1 2) := by
  constructor
  · have h := (geometryFromRow_precedence
      (fun s => if s = "POLYGON" then some (.polygon [[(0, 0), (1, 0), (1, 1)]]) else none)
      (fun _ => JSNum.nan) [("polygon_wkt", .str " POLYGON ")]).1
      " POLYGON " (by decide) (by decide)
    rw [h]
    decide
  · have h := ((geometryFromRow_precedence (fun _ => none) (fun _ => JSNum.nan)
      exRowXY).2 (by
        intro s hs
        rw [show rowGet exRowXY "polygon_wkt" = JSVal.undefined from rfl] at hs
        exact JSVal.noConfusion hs)).1 1 2 (by decide) (by decide)
    exact h

/-! ## C5 — effective limit -/

/-- C5 (counterexample): `limit=-3` is not a positive integer, so the claim
mandates an effective limit of `MAX_LIMIT` (and ≥ 0 in all cases); the code
computes `Math.min(-3 || 2000, 2000) = -3`, which is negative.  (JS has
`Number("-3") = -3`, as `exExt.stn` records.) -/
theorem effectiveLimit_claim_false_on_negative :
    effectiveLimit exExt.stn (some (.str "-3")) = .fin (-3) ∧
    effectiveLimit exExt.stn (some (.str "-3")) ≠ .fin MAX_LIMIT ∧
    (-3 : ℚ) < 0 := by
  refine ⟨by decide, by decide, by norm_num⟩

/-- C5 (amended): the effective limit defaults to `MAX_LIMIT` exactly when
the limit parameter's JS-number coercion is `NaN` (including an absent
parameter) or `0`; any other coerced value `q` — positive, negative, or
fractional — yields `min(q, MAX_LIMIT)` (`+Infinity` clamps to `MAX_LIMIT`,
`-Infinity` stays `-Infinity`), so the effective limit is not always ≥ 0. -/
theorem effectiveLimit_spec (stn : String → JSNum) (limitParam : Option QueryVal) :
    ((candNumber stn (limitCandidate limitParam) = .nan ∨
      candNumber stn (limitCandidate limitParam) = .fin 0) →
      effectiveLimit stn limitParam = .fin MAX_LIMIT) ∧
    (∀ q, candNumber stn (limitCandidate limitParam) = .fin q → q ≠ 0 →
      effectiveLimit stn limitParam = .fin (min q MAX_LIMIT)) ∧
    (candNumber stn (limitCandidate limitParam) = .posInf →
      effectiveLimit stn limitParam = .fin MAX_LIMIT) ∧
    (candNumber stn (limitCandidate limitParam) = .negInf →
      effectiveLimit stn limitParam = .negInf) := by
  refine ⟨?_, ?_, ?_, ?_⟩
  · rintro (h | h) <;>
      simp [effectiveLimit, h, jsOr, JSNum.truthy, jsMin, MAX_LIMIT]
  · intro q h hq
    simp [effectiveLimit, h, jsOr, JSNum.truthy, hq, jsMin]
  · intro h
    simp [effectiveLimit, h, jsOr, JSNum.truthy, jsMin]
  · intro h
    simp [effectiveLimit, h, jsOr, JSNum.truthy, jsMin]

/-- C5 (witness): a positive integer limit `5` is clamped to
`min(5, MAX_LIMIT) = 5`, and an absent limit defaults to `MAX_LIMIT`. -/
theorem effectiveLimit_spec_witness :
    effectiveLimit exExt.stn (some (.str "5")) = .fin (min 5 MAX_LIMIT) ∧
    effectiveLimit exExt.stn none = .fin MAX_LIMIT := by
  constructor
  · exact (effectiveLimit_spec exExt.stn (some (.str "5"))).2.1 5 (by decide) (by norm_num)
  · exact (effectiveLimit_spec exExt.stn none).1 (Or.inl (by decide))

/-! ## C6 — cache key -/

/-- C6 (counterexample): `limit=3000` and `limit=2500` clamp to the same
effective limit `2000`, yet the code keys the cache on the *raw* limit
string, so the two requests address different cache entries. -/
theorem cacheKey_claim_false_on_clamped_limits :
    effectiveLimit exExt.stn (some (.str "3000"))
      = effectiveLimit exExt.stn (some (.str "2500")) ∧
    cacheKey "http://a" none (some (.str "3000"))
      ≠ cacheKey "http://a" none (some (.str "2500")) := by
  refine ⟨by decide, by decide⟩

/-- C6 (amended): the cache key is exactly
`(url, table override or "", raw limit parameter as interpolated text)`:
requests whose raw limit parameters interpolate to the same text share an
entry, while raw limits `3000` and `2500` — despite clamping to the same
effective limit — never share one, whatever the url and table. -/
theorem cacheKey_raw_components (url : String) (tableName : Option String)
    (l1 l2 : Option QueryVal) (h : templateString l1 = templateString l2) :
    cacheKey url tableName l1 = cacheKey url tableName l2 ∧
    cacheKey url tableName (some (.str "3000"))
      ≠ cacheKey url tableName (some (.str "2500")) := by
  constructor
  · unfold cacheKey
    rw [h]
  · intro hk
    unfold cacheKey at hk
    have hd := congrArg String.data hk
    simp only [String.data_append] at hd
    exact absurd (List.append_cancel_left hd) (by decide)

/-- C6 (witness): a limit passed as the one-element array `["7"]`
interpolates to the same text as the plain string `"7"`, hence addresses
the same cache entry. -/
theorem cacheKey_raw_components_witness :
    cacheKey "http://a" (some "t") (some (.arr ["7"]))
      = cacheKey "http://a" (some "t") (some (.str "7")) ∧
    cacheKey "http://a" (some "t") (some (.str "3000"))
      ≠ cacheKey "http://a" (some "t") (some (.str "2500")) :=
  cacheKey_raw_components "http://a" (some "t") (some (.arr ["7"])) (some (.str "7"))
    (by decide)

/-! ## C9 — method guard and missing url -/

/-- C9: a non-GET request is answered `405` with an `Allow: GET` header; a
GET request without a `url` query parameter is answered `400`. -/
theorem handler_method_and_missing_url (ext : Ext) (env : String → Store)
    (now : ℤ) (cache : CacheMap) (req : Request) :
    (req.method ≠ "GET" →
      (handler ext env now cache req).response.status = 405 ∧
      (handler ext env now cache req).response.allow = some "GET") ∧
    (req.method = "GET" → req.url = none →
      (handler ext env now cache req).response.status = 400) := by
  constructor
  · intro hm
    unfold handler
    simp [hm]
  · intro hm hu
    unfold handler
    simp [hm, hu, queryString]

/-- C9 (witness): a POST request and a GET request with no `url`. -/
theorem handler_method_and_missing_url_witness :
    ((handler exExt exEnv 0 (fun _ => none) ⟨"POST", some (.str exUrl), none, none⟩).response.status
        = 405 ∧
      (handler exExt exEnv 0 (fun _ => none)
          ⟨"POST", some (.str exUrl), none, none⟩).response.allow = some "GET") ∧
    (handler exExt exEnv 0 (fun _ => none) ⟨"GET", none, none, none⟩).response.status = 400 := by
  constructor
  · exact (handler_method_and_missing_url exExt exEnv 0 (fun _ => none)
      ⟨"POST", some (.str exUrl), none, none⟩).1 (by decide)
  · exact (handler_method_and_missing_url exExt exEnv 0 (fun _ => none)
      ⟨"GET", none, none, none⟩).2 rfl rfl

/-! ## C10 — pipeline failure leaves the cache unchanged -/

/-- C10: when the pipeline runs and fails, the handler answers `500` with
the error message and the cache is exactly the cache it started with (no
entry written or overwritten at any key).  The hypotheses describe
precisely the requests whose pipeline runs: GET method, a present
non-empty `url` (the code's `if (!url)` guard), no fresh cache entry, and
a failing `buildFeatureCollection`. -/
theorem handler_failure_leaves_cache (ext : Ext) (env : String → Store)
    (now : ℤ) (cache : CacheMap) (req : Request) (url : String) (e : String)
    (hm : req.method = "GET") (hu : queryString req.url = some url)
    (hne : url ≠ "")
    (hmiss : ∀ c, cache (cacheKey url (queryString req.table) req.limit) = some c →
      ¬(now - c.timestamp < CACHE_TTL_MS))
    (herr : (buildFeatureCollection ext env url (queryString req.table) req.limit).res
      = .error e) :
    (handler ext env now cache req).response.status = 500 ∧
    (handler ext env now cache req).response.body = .errJson e ∧
    (handler ext env now cache req).cache = cache := by
  unfold handler
  simp only [hm, ne_eq, not_true_eq_false, if_false, hu, hne]
  cases hc : cache (cacheKey url (queryString req.table) req.limit) with
  | some c =>
    simp only [hc, hmiss c hc, if_false]
    unfold handlerMiss
    simp [herr]
  | none =>
    simp only [hc]
    unfold handlerMiss
    simp [herr]

/-- C10 (witness): a GET request for a `file:` URL fails validation on an
empty cache; the handler answers 500 and the cache is still empty. -/
theorem handler_failure_leaves_cache_witness :
    (handler exExt exEnv 0 (fun _ => none)
        ⟨"GET", some (.str "file:///etc/passwd"), none, none⟩).response.status = 500 ∧
    (handler exExt exEnv 0 (fun _ => none)
        ⟨"GET", some (.str "file:///etc/passwd"), none, none⟩).response.body
      = .errJson "Only http and https URLs are allowed." ∧
    (handler exExt exEnv 0 (fun _ => none)
        ⟨"GET", some (.str "file:///etc/passwd"), none, none⟩).cache = (fun _ => none) :=
  handler_failure_leaves_cache exExt exEnv 0 (fun _ => none)
    ⟨"GET", some (.str "file:///etc/passwd"), none, none⟩ "file:///etc/passwd"
    "Only http and https URLs are allowed." rfl rfl (by decide)
    (fun _ hc => Option.noConfusion hc) rfl

/-! ## C3 — URL validation precedes all network access -/

/-- C3 (counterexample): the empty string is an input that does not parse
as an absolute URL (`new URL("")` throws), yet a GET request with
`url=""` is answered `400` by the handler's `if (!url)` missing-parameter
check — not the `500` validation error the claim mandates for every
non-parsing input string.  (No network access happens, as the claim also
requires.) -/
theorem invalid_url_claim_false_on_empty_url :
    exExt.parseURL "" = none ∧
    (handler exExt exEnv 0 (fun _ => none)
        ⟨"GET", some (.str ""), none, none⟩).response.status = 400 ∧
    (handler exExt exEnv 0 (fun _ => none)
        ⟨"GET", some (.str ""), none, none⟩).response.status ≠ 500 ∧
    (handler exExt exEnv 0 (fun _ => none)
        ⟨"GET", some (.str ""), none, none⟩).storeCalls = 0 := by
  refine ⟨rfl, rfl, by decide, rfl⟩

/-- C3 (amended): a string that the URL parser rejects, or whose scheme is
not `http`/`https`, makes the pipeline fail before its first
Bundle-Accessor call (zero store calls); a cache-missing GET request for
it is answered `500` when the string is non-empty — the empty string is
caught earlier by the `if (!url)` missing-parameter check and answered
`400` — and in every case zero store calls are made. -/
theorem invalid_url_rejected_without_fetch (ext : Ext) (env : String → Store)
    (url : String)
    (hbad : ext.parseURL url = none ∨
      ∀ protocol, ext.parseURL url = some protocol →
        ¬(protocol = "http:" ∨ protocol = "https:")) :
    (∀ tableName limitParam,
      (∃ e, (buildFeatureCollection ext env url tableName limitParam).res = .error e) ∧
      (buildFeatureCollection ext env url tableName limitParam).calls = 0) ∧
    (∀ now cache req, req.method = "GET" → queryString req.url = some url →
      (∀ c, cache (cacheKey url (queryString req.table) req.limit) = some c →
        ¬(now - c.timestamp < CACHE_TTL_MS)) →
      ((url ≠ "" → (handler ext env now cache req).response.status = 500) ∧
        (url = "" → (handler ext env now cache req).response.status = 400) ∧
        (handler ext env now cache req).storeCalls = 0)) := by
  have hassert : ∃ e, assertHttpUrl ext.parseURL url = .error e := by
    unfold assertHttpUrl
    cases hp : ext.parseURL url with
    | none => exact ⟨"URL is not valid.", rfl⟩
    | some protocol =>
      rcases hbad with hbad | hbad
      · exact absurd hp (by rw [hbad]; exact fun h => Option.noConfusion h)
      · exact ⟨"Only http and https URLs are allowed.", by simp [hbad protocol hp]⟩
  obtain ⟨e, he⟩ := hassert
  have hbuild : ∀ tableName limitParam,
      buildFeatureCollection ext env url tableName limitParam = ⟨.error e, 0⟩ := by
    intro tableName limitParam
    unfold buildFeatureCollection
    rw [he]
  refine ⟨fun tableName limitParam => ⟨⟨e, by rw [hbuild]⟩, by rw [hbuild]⟩, ?_⟩
  intro now cache req hm hu hmiss
  by_cases hne : url = ""
  · subst hne
    unfold handler
    simp only [hm, ne_eq, not_true_eq_false, if_false, hu, if_pos rfl]
    exact ⟨fun h => h.elim, fun _ => rfl, rfl⟩
  · unfold handler
    simp only [hm, ne_eq, not_true_eq_false, if_false, hu, hne]
    cases hc : cache (cacheKey url (queryString req.table) req.limit) with
    | some c =>
      simp only [hc, hmiss c hc, if_false]
      unfold handlerMiss
      rw [hbuild]
      exact ⟨fun _ => rfl, fun h => h.elim, rfl⟩
    | none =>
      simp only [hc]
      unfold handlerMiss
      rw [hbuild]
      exact ⟨fun _ => rfl, fun h => h.elim, rfl⟩

/-- C3 (witness): `url=file:///etc/passwd` (the JS `URL` constructor parses
it with protocol `file:`; the string is non-empty, so the `500` branch of
the amended claim applies). -/
theorem invalid_url_rejected_without_fetch_witness :
    ((∃ e, (buildFeatureCollection exExt exEnv "file:///etc/passwd" none none).res
        = .error e) ∧
      (buildFeatureCollection exExt exEnv "file:///etc/passwd" none none).calls = 0) ∧
    ((handler exExt exEnv 0 (fun _ => none)
        ⟨"GET", some (.str "file:///etc/passwd"), none, none⟩).response.status = 500 ∧
      (handler exExt exEnv 0 (fun _ => none)
        ⟨"GET", some (.str "file:///etc/passwd"), none, none⟩).storeCalls = 0) := by
  have h := invalid_url_rejected_without_fetch exExt exEnv "file:///etc/passwd"
    (Or.inr (by intro protocol hp; simp [exExt] at hp; simp [← hp]))
  have h2 := h.2 0 (fun _ => none)
    ⟨"GET", some (.str "file:///etc/passwd"), none, none⟩ rfl rfl
    (fun _ hc => Option.noConfusion hc)
  exact ⟨h.1 none none, h2.1 (by decide), h2.2.2⟩

/-! ## C4 — fresh cache hit skips the pipeline -/

/-- C4: after a successful request at time `t0`, a second request with
identical `(url, table, limit)` query parameters at any time `t1` with
`t1 − t0 < TTL` is answered with the identical payload from the cache,
performs zero Bundle-Accessor calls, and leaves the cache as it was. -/
theorem handler_fresh_hit_skips_pipeline (ext : Ext) (env : String → Store)
    (t0 t1 : ℤ) (cache : CacheMap) (req req2 : Request) (url : String)
    (payload : FeatureResponse)
    (hm : req.method = "GET") (hu : queryString req.url = some url)
    (hmiss : ∀ c, cache (cacheKey url (queryString req.table) req.limit) = some c →
      ¬(t0 - c.timestamp < CACHE_TTL_MS))
    (hok : (buildFeatureCollection ext env url (queryString req.table) req.limit).res
      = .ok payload)
    (h2m : req2.method = "GET") (h2u : req2.url = req.url) (h2t : req2.table = req.table)
    (h2l : req2.limit = req.limit)
    (hfresh : t1 - t0 < CACHE_TTL_MS) :
    (handler ext env t0 cache req).response = ⟨200, none, .featureJson payload⟩ ∧
    (handler ext env t1 (handler ext env t0 cache req).cache req2).response
      = ⟨200, none, .featureJson payload⟩ ∧
    (handler ext env t1 (handler ext env t0 cache req).cache req2).storeCalls = 0 ∧
    (handler ext env t1 (handler ext env t0 cache req).cache req2).cache
      = (handler ext env t0 cache req).cache := by
  have hne : url ≠ "" := by
    intro h
    subst h
    unfold buildFeatureCollection at hok
    rw [show assertHttpUrl ext.parseURL "" = Except.error "URL is not valid." from by
      unfold assertHttpUrl; rw [ext.parseURL_empty]] at hok
    simp at hok
  have h1 : handler ext env t0 cache req =
      ⟨⟨200, none, .featureJson payload⟩,
       fun k => if k = cacheKey url (queryString req.table) req.limit then
         some ⟨t0, payload⟩ else cache k,
       (buildFeatureCollection ext env url (queryString req.table) req.limit).calls⟩ := by
    unfold handler
    simp only [hm, ne_eq, not_true_eq_false, if_false, hu, hne]
    cases hc : cache (cacheKey url (queryString req.table) req.limit) with
    | some c =>
      simp only [hc, hmiss c hc, if_false]
      unfold handlerMiss
      simp only [hok]
    | none =>
      simp only [hc]
      unfold handlerMiss
      simp only [hok]
  have h2 : handler ext env t1 (handler ext env t0 cache req).cache req2 =
      ⟨⟨200, none, .featureJson payload⟩, (handler ext env t0 cache req).cache, 0⟩ := by
    rw [h1]
    unfold handler
    simp only [h2m, ne_eq, not_true_eq_false, if_false, h2u, hu, h2t, h2l, hne,
      if_pos rfl]
    simp [hfresh]
  rw [h1] at h2 ⊢
  rw [h2]
  exact ⟨rfl, rfl, rfl, rfl⟩

/-- C4 (witness): two GET requests for the miniature bundle with `limit=5`,
one millisecond apart, on an initially empty cache. -/
theorem handler_fresh_hit_skips_pipeline_witness :
    (handler exExt exEnv 0 (fun _ => none)
        ⟨"GET", some (.str exUrl), some (.str "t"), some (.str "5")⟩).response
      = ⟨200, none, .featureJson exFCgood⟩ ∧
    (handler exExt exEnv 1
        (handler exExt exEnv 0 (fun _ => none)
          ⟨"GET", some (.str exUrl), some (.str "t"), some (.str "5")⟩).cache
        ⟨"GET", some (.str exUrl), some (.str "t"), some (.str "5")⟩).response
      = ⟨200, none, .featureJson exFCgood⟩ ∧
    (handler exExt exEnv 1
        (handler exExt exEnv 0 (fun _ => none)
          ⟨"GET", some (.str exUrl), some (.str "t"), some (.str "5")⟩).cache
        ⟨"GET", some (.str exUrl), some (.str "t"), some (.str "5")⟩).storeCalls = 0 ∧
    (handler exExt exEnv 1
        (handler exExt exEnv 0 (fun _ => none)
          ⟨"GET", some (.str exUrl), some (.str "t"), some (.str "5")⟩).cache
        ⟨"GET", some (.str exUrl), some (.str "t"), some (.str "5")⟩).cache
      = (handler exExt exEnv 0 (fun _ => none)
          ⟨"GET", some (.str exUrl), some (.str "t"), some (.str "5")⟩).cache :=
  handler_fresh_hit_skips_pipeline exExt exEnv 0 1 (fun _ => none)
    ⟨"GET", some (.str exUrl), some (.str "t"), some (.str "5")⟩
    ⟨"GET", some (.str exUrl), some (.str "t"), some (.str "5")⟩
    exUrl exFCgood rfl rfl (fun _ hc => Option.noConfusion hc) rfl
    rfl rfl rfl rfl (by decide)

/-! ## Pipeline inversion lemmas -/

theorem readColumn_ok_bounds {store : Store} {path : String} {q : ℚ}
    {data : List JSVal} (hq : 0 ≤ q)
    (h : (readColumn store path (.fin q)).res = .ok data) :
    ∃ arr, store.arrayAt path = .ok arr ∧
      data.length ≤ arr.length ∧ (data.length : ℚ) ≤ q := by
  unfold readColumn at h
  rw [andThen_ok_iff] at h
  obtain ⟨arr, harr, h⟩ := h
  rw [andThen_ok_iff] at h
  obtain ⟨vals, hslice, hpure⟩ := h
  simp only [call1] at harr hslice
  simp only [BRes.pure, Except.ok.injEq] at hpure
  subst hpure
  refine ⟨arr, harr, ?_⟩
  have hmin : jsMin (.fin q) (.fin (arr.length : ℚ)) = .fin (min q (arr.length : ℚ)) := rfl
  rw [hmin] at hslice
  set m := min q (arr.length : ℚ) with hm
  have hm0 : 0 ≤ m := le_min hq (Nat.cast_nonneg _)
  rw [show zarrSlice0 arr (.fin m) =
    (if m.den = 1 then
      (if 0 ≤ m.num then Except.ok (arr.take m.num.toNat)
       else .ok (arr.take (arr.length - (-m.num).toNat)))
     else .error "Invalid slice stop.") from rfl] at hslice
  by_cases hden : m.den = 1
  · have hnum : 0 ≤ m.num := Rat.num_nonneg.mpr hm0
    rw [if_pos hden, if_pos hnum] at hslice
    have hval : vals = arr.take m.num.toNat := by
      exact (Except.ok.injEq _ _).mp hslice.symm
    subst hval
    constructor
    · rw [List.length_take]
      exact min_le_right _ _
    · rw [List.length_take]
      have h2 : ((m.num.toNat : ℤ) : ℚ) = ((m.num : ℤ) : ℚ) := by
        exact_mod_cast congrArg (fun z : ℤ => (z : ℚ)) (Int.toNat_of_nonneg hnum)
      have h3 : ((m.num : ℤ) : ℚ) = m := (Rat.den_eq_one_iff m).mp hden
      calc ((min m.num.toNat arr.length : ℕ) : ℚ) ≤ (m.num.toNat : ℚ) := by
            exact_mod_cast min_le_left m.num.toNat arr.length
        _ = m := by push_cast at h2 ⊢; rw [h2, h3]
        _ ≤ q := min_le_left _ _
  · rw [if_neg hden] at hslice
    exact absurd hslice (by simp)

theorem readColumns_cons_ok_inv {store : Store} {obsPath : String} {count : JSNum}
    {c0 : String} {rest : List String} {pairs : List (String × List JSVal)}
    (h : (readColumns store obsPath count (c0 :: rest)).res = .ok pairs) :
    ∃ vals tail, (readColumn store (obsPath ++ "/" ++ c0) count).res = .ok vals ∧
      (readColumns store obsPath count rest).res = .ok tail ∧
      pairs = (c0, vals) :: tail := by
  unfold readColumns at h
  rw [andThen_ok_iff] at h
  obtain ⟨vals, hv, h⟩ := h
  rw [andThen_ok_iff] at h
  obtain ⟨tail, ht, hpure⟩ := h
  simp only [BRes.pure, Except.ok.injEq] at hpure
  exact ⟨vals, tail, hv, ht, hpure.symm⟩

theorem effectiveLimit_fin_le {stn : String → JSNum} {limitParam : Option QueryVal}
    {q : ℚ} (h : effectiveLimit stn limitParam = .fin q) : q ≤ MAX_LIMIT := by
  unfold effectiveLimit at h
  cases ho : jsOr (candNumber stn (limitCandidate limitParam)) (.fin MAX_LIMIT) with
  | fin r =>
    rw [ho] at h
    have : q = min r MAX_LIMIT := by
      exact (JSNum.fin.injEq _ _).mp h.symm
    rw [this]
    exact min_le_right _ _
  | nan => rw [ho] at h; exact absurd h (by simp [jsMin])
  | posInf =>
    rw [ho] at h
    have : q = MAX_LIMIT := by
      exact (JSNum.fin.injEq _ _).mp h.symm
    rw [this]
  | negInf => rw [ho] at h; exact absurd h (by simp [jsMin])

/-- Inversion of a successful `buildFeatureCollection`: the trace of the
pipeline stages and the shape of the result. -/
theorem buildFeatureCollection_ok_inv (ext : Ext) (env : String → Store)
    (url : String) (tableName : Option String) (limitParam : Option QueryVal)
    (fc : FeatureResponse)
    (hok : (buildFeatureCollection ext env url tableName limitParam).res = .ok fc) :
    ∃ name columns pairs,
      (getTableName (env url) tableName).res = .ok name ∧
      (resolveColumns ext.jparse (env url) name).res = .ok columns ∧
      columns ≠ [] ∧
      (readColumns (env url) ("tables/" ++ name ++ "/obs")
        (effectiveLimit ext.stn limitParam) columns).res = .ok pairs ∧
      fc = ⟨assembleFeatures ext.parseWkt ext.stn pairs columns
              ((pairs.lookup (columns.headD "")).getD []).length, columns⟩ := by
  unfold buildFeatureCollection at hok
  cases ha : assertHttpUrl ext.parseURL url with
  | error e => rw [ha] at hok; exact absurd hok (by simp)
  | ok u =>
    rw [ha] at hok
    rw [andThen_ok_iff] at hok
    obtain ⟨hasTables, hct, hok⟩ := hok
    cases hasTables with
    | false => exact absurd hok (by simp [BRes.fail])
    | true =>
      simp only [Bool.not_true, Bool.false_eq_true, if_false] at hok
      rw [andThen_ok_iff] at hok
      obtain ⟨name, hname, hok⟩ := hok
      rw [andThen_ok_iff] at hok
      obtain ⟨columns, hcols, hok⟩ := hok
      by_cases hlen : columns.length = 0
      · rw [if_pos hlen] at hok
        exact absurd hok (by simp [BRes.fail])
      · rw [if_neg hlen] at hok
        rw [andThen_ok_iff] at hok
        obtain ⟨pairs, hpairs, hpure⟩ := hok
        simp only [BRes.pure, Except.ok.injEq] at hpure
        exact ⟨name, columns, pairs, hname, hcols,
          fun hnil => hlen (by rw [hnil]; rfl), hpairs, hpure.symm⟩

/-! ## C2 — feature-count bound -/

/-- C2 (counterexample): `limit=0` on the miniature 1-row bundle.  The
claim's bound is `min(0, 2000, 1) = 0` features, but `Number("0") = 0` is
falsy, so the code defaults the limit to `MAX_LIMIT` and the 200 response
carries one feature. -/
theorem feature_count_claim_false_on_zero_limit :
    (buildFeatureCollection exExt exEnv exUrl (some "t") (some (.str "0"))).res
      = .ok exFCgood ∧
    candNumber exExt.stn (limitCandidate (some (.str "0"))) = .fin 0 ∧
    exFCgood.features.length = 1 ∧
    ¬((1 : ℚ) ≤ min 0 (min MAX_LIMIT 1)) := by
  refine ⟨rfl, by decide, rfl, by decide⟩

/-- C2 (amended): whenever the *effective* limit is a non-negative number
`q` (in particular for every requested limit that coerces to a positive
number, and for absent/NaN/zero limits, where `q = MAX_LIMIT`), the
feature count of a successful response is at most `q`, at most
`MAX_LIMIT` (since `q ≤ MAX_LIMIT`), and at most the bundle's row count
`T` (an upper bound on every column array's length). -/
theorem feature_count_bounded (ext : Ext) (env : String → Store) (url : String)
    (tableName : Option String) (limitParam : Option QueryVal) (q : ℚ) (T : ℕ)
    (fc : FeatureResponse)
    (hq : effectiveLimit ext.stn limitParam = .fin q) (hq0 : 0 ≤ q)
    (htot : ∀ p arr, (env url).arrayAt p = .ok arr → arr.length ≤ T)
    (hok : (buildFeatureCollection ext env url tableName limitParam).res = .ok fc) :
    (fc.features.length : ℚ) ≤ q ∧ q ≤ MAX_LIMIT ∧ fc.features.length ≤ T := by
  obtain ⟨name, columns, pairs, hname, hcols, hnil, hpairs, hfc⟩ :=
    buildFeatureCollection_ok_inv ext env url tableName limitParam fc hok
  cases columns with
  | nil => exact absurd rfl hnil
  | cons c0 rest =>
    rw [hq] at hpairs
    obtain ⟨vals, tail, hv, ht, hp⟩ := readColumns_cons_ok_inv hpairs
    obtain ⟨arr, harr, hlen1, hlen2⟩ := readColumn_ok_bounds hq0 hv
    subst hp
    have hrows : ((((c0, vals) :: tail).lookup ((c0 :: rest).headD "")).getD []) = vals := by
      simp [List.lookup]
    have hfl : fc.features.length ≤ vals.length := by
      rw [hfc]
      simp only
      rw [hrows]
      exact assembleFeatures_length_le _ _ _ _ _
    refine ⟨?_, effectiveLimit_fin_le hq, ?_⟩
    · calc (fc.features.length : ℚ) ≤ (vals.length : ℚ) := by exact_mod_cast hfl
        _ ≤ q := hlen2
    · exact le_trans hfl (le_trans hlen1 (htot _ _ harr))

/-- C2 (witness): the miniature 1-row bundle with `limit=5`: one feature,
and `1 ≤ 5 ≤ 2000`, `1 ≤ 1`. -/
theorem feature_count_bounded_witness :
    (exFCgood.features.length : ℚ) ≤ 5 ∧ 5 ≤ MAX_LIMIT ∧
      exFCgood.features.length ≤ 1 :=
  feature_count_bounded exExt exEnv exUrl (some "t") (some (.str "5")) 5 1 exFCgood
    (by decide) (by norm_num)
    (fun p arr h => by
      simp only [exEnv, exStore] at h
      split at h
      · cases h; decide
      · split at h
        · cases h; decide
        · exact Except.noConfusion h)
    rfl

/-! ## C8 — feature order and full column list -/

/-- C8: every successful response carries the full resolved column order as
`columns`, independent of surviving rows, and its features are the
`filterMap` of the per-index candidate over row indices `0..rows-1` — an
order-preserving subsequence of the rows with dropped rows simply absent. -/
theorem features_ordered_columns_full (ext : Ext) (env : String → Store)
    (url : String) (tableName : Option String) (limitParam : Option QueryVal)
    (fc : FeatureResponse)
    (hok : (buildFeatureCollection ext env url tableName limitParam).res = .ok fc) :
    ∃ name columns pairs,
      (getTableName (env url) tableName).res = .ok name ∧
      (resolveColumns ext.jparse (env url) name).res = .ok columns ∧
      (readColumns (env url) ("tables/" ++ name ++ "/obs")
        (effectiveLimit ext.stn limitParam) columns).res = .ok pairs ∧
      fc.columns = columns ∧
      fc.features
        = (List.range ((pairs.lookup (columns.headD "")).getD []).length).filterMap
            (candFeature ext.parseWkt ext.stn pairs columns) := by
  obtain ⟨name, columns, pairs, hname, hcols, hnil, hpairs, hfc⟩ :=
    buildFeatureCollection_ok_inv ext env url tableName limitParam fc hok
  refine ⟨name, columns, pairs, hname, hcols, hpairs, ?_, ?_⟩
  · rw [hfc]
  · rw [hfc]
    exact assembleFeatures_eq_filterMap _ _ _ _ _

/-- C8 (witness): the miniature bundle's response. -/
theorem features_ordered_columns_full_witness :
    ∃ name columns pairs,
      (getTableName (exEnv exUrl) (some "t")).res = .ok name ∧
      (resolveColumns exExt.jparse (exEnv exUrl) name).res = .ok columns ∧
      (readColumns (exEnv exUrl) ("tables/" ++ name ++ "/obs")
        (effectiveLimit exExt.stn none) columns).res = .ok pairs ∧
      exFCgood.columns = columns ∧
      exFCgood.features
        = (List.range ((pairs.lookup (columns.headD "")).getD []).length).filterMap
            (candFeature exExt.parseWkt exExt.stn pairs columns) :=
  features_ordered_columns_full exExt exEnv exUrl (some "t") none exFCgood rfl

/-! ## C7 — column-order resolution -/

/-- C7: with readable, parseable observation metadata, (1) a declared
non-empty `column-order` array is authoritative; (2) otherwise the column
list is the observation-root listing restricted to `array`/`dataset`
entries whose names do not start with `"."`, in listing order; and (3) an
empty resolved list fails the request with the "no columns" error. -/
theorem resolveColumns_order_spec (ext : Ext) (env : String → Store) (url : String)
    (tableName : Option String) (limitParam : Option QueryVal) (name text : String)
    (attrs : JSON)
    (hbuf : (env url).getItem ("tables/" ++ name ++ "/obs" ++ "/.zattrs") = .ok (some text))
    (hj : ext.jparse text = .ok attrs) :
    (∀ xs, jsonLookup attrs "column-order" = some (.arr xs) → xs ≠ [] →
      (resolveColumns ext.jparse (env url) name).res = .ok (jsonKeyStrings xs)) ∧
    ((∀ xs, jsonLookup attrs "column-order" = some (.arr xs) → xs = []) →
      ∀ listing, (env url).listDir ("tables/" ++ name ++ "/obs") = .ok listing →
        (resolveColumns ext.jparse (env url) name).res =
          .ok (((listing.filter fun e => e.kind = "array" ∨ e.kind = "dataset").map
              fun e => e.pathSegment).filter fun n => !n.startsWith ".")) ∧
    ((resolveColumns ext.jparse (env url) name).res = .ok [] →
      assertHttpUrl ext.parseURL url = .ok () →
      (env url).containsItem "tables/.zgroup" = .ok true →
      (getTableName (env url) tableName).res = .ok name →
      (buildFeatureCollection ext env url tableName limitParam).res
        = .error "No observation columns available.") := by
  refine ⟨?_, ?_, ?_⟩
  · intro xs hlook hne
    unfold resolveColumns
    rw [andThen_res_of_ok (show (call1 ((env url).getItem
      ("tables/" ++ name ++ "/obs" ++ "/.zattrs"))).res = .ok (some text) by
        simp [call1, hbuf])]
    simp only [hj, hlook]
    cases xs with
    | nil => exact absurd rfl hne
    | cons y ys => simp [jsonKeyStrings, BRes.pure]
  · intro horder listing hlist
    unfold resolveColumns
    rw [andThen_res_of_ok (show (call1 ((env url).getItem
      ("tables/" ++ name ++ "/obs" ++ "/.zattrs"))).res = .ok (some text) by
        simp [call1, hbuf])]
    simp only [hj]
    have horder0 : (match jsonLookup attrs "column-order" with
        | some (.arr xs) => jsonKeyStrings xs
        | _ => ([] : List String)) = ([] : List String) := by
      cases hl : jsonLookup attrs "column-order" with
      | none => rfl
      | some j =>
        cases j with
        | arr xs => rw [horder xs hl]; rfl
        | str s => rfl
        | num q => rfl
        | bool b => rfl
        | null => rfl
        | obj fields => rfl
    rw [horder0]
    simp only [List.length_nil, gt_iff_lt, lt_self_iff_false, if_false]
    rw [andThen_res_of_ok (show (call1 ((env url).listDir
      ("tables/" ++ name ++ "/obs"))).res = .ok listing by simp [call1, hlist])]
    rfl
  · intro hempty hassert hct hname
    unfold buildFeatureCollection
    rw [hassert]
    rw [andThen_res_of_ok (show (call1 ((env url).containsItem
      "tables/.zgroup")).res = .ok true by simp [call1, hct])]
    simp only [Bool.not_true, Bool.false_eq_true, if_false]
    rw [andThen_res_of_ok hname]
    rw [andThen_res_of_ok hempty]
    rfl

/-- C7 (witness): the miniature bundle's declared order `["x", "y"]` is
authoritative; a variant bundle without a declared order falls back to the
filtered listing; an all-hidden listing yields the "no columns" failure. -/
theorem resolveColumns_order_spec_witness :
    (resolveColumns exExt.jparse (exEnv exUrl) "t").res = .ok ["x", "y"] :=
  (resolveColumns_order_spec exExt exEnv exUrl (some "t") none "t" "ATTRS"
      (.obj [("column-order", .arr [.str "x", .str "y"])]) rfl rfl).1
    [.str "x", .str "y"] rfl (List.cons_ne_nil _ _)

end OmniSpatial
